import Mathlib

/-!
Verification of the command layer in `src/commands.ts` of `jsr-npm`.

File contents are modeled as `List Char`; the outcome of reading a config
file is `ReadResult` (found contents, ENOENT, or another I/O failure).
Each setup procedure is embedded as a pure function from the read outcome
to the write it performs (`none` = no write, `some w` = the file is
written with bytes `w`), with non-ENOENT failures propagating in `Except`.
The `publish` procedure is embedded as the trace of effects it performs
(delete the bin folder, download, execute the subprocess), parameterized
by the existence check for the binary and the outcome of the deletion.
-/

namespace JsrNpm

/-- The constant `JSR_NPMRC` of src/commands.ts line 11, as a character
list. Note the registry URL carries no trailing slash; the line ends in a
newline. -/
def JSR_NPMRC : List Char := ("@jsr:registry=https://npm.jsr.io\n").data

/-- The constant `JSR_BUNFIG` of src/commands.ts line 12: the
`[install.scopes]` block declaring the `@jsr` scope registry. -/
def JSR_BUNFIG : List Char :=
  ("[install.scopes]\n\"@jsr\" = \"https://npm.jsr.io/\"\n").data

/-- Outcome of `fs.promises.readFile` on a config file: the contents, a
not-found failure (code ENOENT), or any other I/O failure carrying an
abstract error value. -/
inductive ReadResult where
  | found (content : List Char)
  | enoent
  | ioError (e : Nat)

/-- Shallow embedding of `setupNpmRc` (src/commands.ts lines 26-46) as a
function of the prior state of `<dir>/.npmrc`. `ok none` means no write
occurred (the file bytes are unchanged); `ok (some w)` means the file was
written with bytes `w`; `error e` means a non-ENOENT read failure
propagated. The source's `content.includes(JSR_NPMRC)` is substring
containment, i.e. list infix. -/
def setupNpmRc : ReadResult → Except Nat (Option (List Char))
  | ReadResult.found content =>
      if JSR_NPMRC <:+: content then Except.ok none
      else Except.ok (some (content ++ JSR_NPMRC))
  | ReadResult.enoent => Except.ok (some JSR_NPMRC)
  | ReadResult.ioError e => Except.error e

/-- The JavaScript `\s` character class, restricted to the characters that
can occur in the config files this code manipulates (ASCII whitespace plus
no-break space and BOM). Used by the model of the source's regex
`^"@myorg1"\s+=` with flags `gm`. -/
def isJsWhitespace (c : Char) : Bool :=
  c == ' ' || c == '\t' || c == '\n' || c == '\r' || c == '\x0b' ||
    c == '\x0c' || c == '\u00a0' || c == '\ufeff'

/-- The nine-character literal `"@myorg1"` (quotes included) that the
bunfig presence-check regex looks for (src/commands.ts line 53). -/
def MYORG1_LIT : List Char := ("\"@myorg1\"").data

/-- Does the regex `^"@myorg1"\s+=` match at the start of `s`? The
literal, then one or more whitespace characters, then `=`. Because `=` is
not whitespace, the greedy `\s+` is equivalent to: the maximal whitespace
run after the literal is nonempty and the character after it is `=`. -/
def matchMyorg1At (s : List Char) : Bool :=
  MYORG1_LIT.isPrefixOf s &&
    (let rest := s.drop MYORG1_LIT.length
     (!(rest.takeWhile isJsWhitespace).isEmpty) &&
       ((rest.dropWhile isJsWhitespace).head? == some '='))

/-- With the `m` flag, `^` also matches just after every newline: test the
pattern at each position preceded by a newline character. -/
def matchAfterNewline : List Char → Bool
  | [] => false
  | c :: t => (c == '\n' && matchMyorg1At t) || matchAfterNewline t

/-- The test `/^"@myorg1"\s+=/gm.test(content)` of src/commands.ts line
53: the pattern matches at the start of the content or just after some
newline. -/
def bunfigScopeTest (content : List Char) : Bool :=
  matchMyorg1At content || matchAfterNewline content

/-- Shallow embedding of `setupBunfigToml` (src/commands.ts lines 48-68),
in the same style as `setupNpmRc`: when the regex test fails, the
`JSR_BUNFIG` block is appended and the file rewritten; when it succeeds,
no write occurs; a missing file is created containing the block. -/
def setupBunfigToml : ReadResult → Except Nat (Option (List Char))
  | ReadResult.found content =>
      if bunfigScopeTest content then Except.ok none
      else Except.ok (some (content ++ JSR_BUNFIG))
  | ReadResult.enoent => Except.ok (some JSR_BUNFIG)
  | ReadResult.ioError e => Except.error e

/-- The on-disk contents of `bunfig.toml` after one successful call of
`setupBunfigToml`, as a function of the prior contents (`none` = file
absent). This is `setupBunfigToml` with the write applied to the state. -/
def setupBunfigState (before : Option (List Char)) : Option (List Char) :=
  match before with
  | none => some JSR_BUNFIG
  | some c => if bunfigScopeTest c then some c else some (c ++ JSR_BUNFIG)

/-- Shallow embedding of `wrapWithStatus` (src/commands.ts lines 14-24).
The action is modeled by the standard-output lines it writes together with
its outcome. The wrapper writes `msg ++ "..."` first, then runs the
action, then writes `ok` on success or `error` on failure (kolorist color
codes elided), re-raising the action's failure unchanged. -/
def wrapWithStatus {E : Type} (msg : String)
    (fn : List String × Except E Unit) : List String × Except E Unit :=
  match fn.2 with
  | Except.ok _ => ((msg ++ "...") :: fn.1 ++ ["ok\n"], Except.ok ())
  | Except.error e => ((msg ++ "...") :: fn.1 ++ ["error\n"], Except.error e)

/-- The fields of `PublishOptions` (src/commands.ts lines 98-103) that the
argument list and the effect trace depend on. `token` is
`string | undefined` in the source, modeled as `Option String`. -/
structure PublishOptions where
  dryRun : Bool
  allowSlowTypes : Bool
  token : Option String

/-- An observable effect of `publish`: the recursive deletion of
`binFolder`, the download of the binary, or the execution of the binary
with an argument list. -/
inductive Effect where
  | rmBinFolder
  | download
  | exec (args : List String)

/-- Outcome of `fs.promises.rm(options.binFolder, ...)`: success, a
not-found failure (code ENOENT), or any other failure carrying an
abstract error value. -/
inductive RmOutcome where
  | success
  | enoent
  | failure (e : Nat)

/-- The argument list built at src/commands.ts lines 134-141, mirroring
the source's sequence of conditional `push` calls. The source guards the
token flag with JavaScript truthiness (`if (options.token)`), so both an
undefined token and an empty-string token skip the flag. -/
def publishArgs (o : PublishOptions) : List String :=
  let args :=
    ["publish", "--unstable-bare-node-builtins", "--unstable-sloppy-imports"]
  let args := if o.dryRun then args ++ ["--dry-run"] else args
  let args := if o.allowSlowTypes then args ++ ["--allow-slow-types"] else args
  match o.token with
  | some t => if t = "" then args else args ++ ["--token", t]
  | none => args

/-- Shallow embedding of `publish` (src/commands.ts lines 105-143) as the
trace of effects performed and the error propagated, if any. `binExists`
is the result of `fileExists(binPath)`; `rmOut` is the outcome the
deletion would have. When the binary exists, neither deletion nor
download happens and the subprocess runs at once. Otherwise deletion is
attempted: an ENOENT failure is swallowed (the catch rethrows only other
errors) and the download and execution proceed; any other failure
propagates, aborting before the download. -/
def publishTrace (binExists : Bool) (rmOut : RmOutcome)
    (o : PublishOptions) : List Effect × Option Nat :=
  if binExists then
    ([Effect.exec (publishArgs o)], none)
  else
    match rmOut with
    | RmOutcome.failure e => ([Effect.rmBinFolder], some e)
    | _ =>
        ([Effect.rmBinFolder, Effect.download, Effect.exec (publishArgs o)],
          none)

/-- Number of positions at which `p` occurs as a contiguous substring of
`s`: one position per suffix of `s` of which `p` is a prefix. -/
def countOccs (p : List Char) : List Char → Nat
  | [] => if p <+: ([] : List Char) then 1 else 0
  | c :: t => (if p <+: c :: t then 1 else 0) + countOccs p t

/-- `p` has no nontrivial border: no nonempty proper prefix of `p` is also
a suffix of `p`. The registry line has this property because its only
newline is its final character. -/
abbrev NoBorder (p : List Char) : Prop :=
  ∀ k, k < p.length → 0 < k → p.take k ≠ p.drop (p.length - k)

/-- The spec's version of the registry line, with a trailing slash on the
URL, used to compare the spec sentence of claim C2 with the source. -/
def specNpmrcLineSlash : List Char :=
  ("@jsr:registry=https://npm.jsr.io/").data

end JsrNpm
namespace JsrNpm

lemma countOccs_eq_zero_of_not_infix (p c : List Char) (h : ¬ p <:+: c) :
    countOccs p c = 0 := by
  induction c with
  | nil =>
      have hp : ¬ p <+: ([] : List Char) := fun hpre => h hpre.isInfix
      simp [countOccs, hp]
  | cons a t ih =>
      have hp : ¬ p <+: a :: t := fun hpre => h hpre.isInfix
      have ht : ¬ p <:+: t := fun hin => h ( List.infix_cons hin)
      simp [countOccs, hp, ih ht]

lemma countOccs_eq_zero_of_length_lt (p t : List Char)
    (h : t.length < p.length) : countOccs p t = 0 := by
  induction t with
  | nil =>
      have hp : ¬ p <+: ([] : List Char) := by
        intro hpre
        rw [List.prefix_nil] at hpre
        subst hpre
        simp at h
      simp [countOccs, hp]
  | cons a t ih =>
      rw [List.length_cons] at h
      have hp : ¬ p <+: a :: t := by
        intro hpre
        have hl := hpre.length_le
        rw [List.length_cons] at hl
        omega
      simp [countOccs, hp, ih (by omega)]

lemma not_prefix_of_append (p a : List Char) (hb : NoBorder p) (ha : a ≠ [])
    (hpre : ¬ p <+: a) : ¬ p <+: a ++ p := by
  intro h
  rw [ List.prefix_iff_eq_take, List.take_append_eq_append_take] at h
  by_cases hle : p.length ≤ a.length
  · rw [Nat.sub_eq_zero_of_le hle, List.take_zero, List.append_nil] at h
    exact hpre (by rw [h]; exact List.take_prefix _ _)
  · push_neg at hle
    rw [List.take_of_length_le (le_of_lt hle)] at h
    have hdrop : List.drop a.length p = List.take (p.length - a.length) p := by
      conv_lhs => rw [h]
      rw [ List.drop_left]
    have h0 : 0 < a.length := List.length_pos.mpr ha
    refine hb (p.length - a.length) (by omega) (by omega) ?_
    rw [Nat.sub_sub_self (le_of_lt hle)]
    exact hdrop.symm

lemma countOccs_append_self (p : List Char) (hp : p ≠ []) (hb : NoBorder p) :
    ∀ a : List Char, countOccs p a = 0 → countOccs p (a ++ p) = 1 := by
  intro a
  induction a with
  | nil =>
      intro _
      rw [List.nil_append]
      cases p with
      | nil => exact absurd rfl hp
      | cons c t =>
          have htail : countOccs (c :: t) t = 0 :=
            countOccs_eq_zero_of_length_lt _ _ (by simp)
          simp [countOccs, htail]
  | cons x a ih =>
      intro h0
      rw [countOccs] at h0
      have hpre : ¬ p <+: x :: a := by
        by_contra hc
        rw [if_pos hc] at h0
        omega
      rw [if_neg hpre, Nat.zero_add] at h0
      have hnp : ¬ p <+: (x :: a) ++ p :=
        not_prefix_of_append p (x :: a) hb (by simp) hpre
      rw [List.cons_append] at hnp
      rw [List.cons_append, countOccs, if_neg hnp, ih h0]

lemma jsr_npmrc_ne_nil : JSR_NPMRC ≠ [] := by decide

lemma jsr_npmrc_noBorder : NoBorder JSR_NPMRC := by decide

/-- Claim C7: for every existing `.npmrc` whose contents lack the registry
line, `setupNpmRc` rewrites the file with the line appended, and the new
contents contain the line exactly once (one more occurrence than the old
contents, which contain none). -/
theorem setupNpmRc_appends_line_once (c : List Char)
    (h : ¬ JSR_NPMRC <:+: c) :
    setupNpmRc (ReadResult.found c) = Except.ok (some (c ++ JSR_NPMRC)) ∧
    countOccs JSR_NPMRC c = 0 ∧
    countOccs JSR_NPMRC (c ++ JSR_NPMRC) = 1 := by
  have h0 := countOccs_eq_zero_of_not_infix JSR_NPMRC c h
  exact ⟨by simp [setupNpmRc, h], h0,
    countOccs_append_self JSR_NPMRC jsr_npmrc_ne_nil jsr_npmrc_noBorder c h0⟩

theorem setupNpmRc_appends_line_once_witness :
    setupNpmRc (ReadResult.found []) = Except.ok (some ([] ++ JSR_NPMRC)) ∧
    countOccs JSR_NPMRC [] = 0 ∧
    countOccs JSR_NPMRC ([] ++ JSR_NPMRC) = 1 :=
  setupNpmRc_appends_line_once [] (by decide)


/-- Claim C1 is violated by the code: `setupBunfigToml` is not idempotent.
Starting from an absent `bunfig.toml`, the first call writes `JSR_BUNFIG`,
and the second call, whose presence check looks for a line matching
`^"@myorg1"\s+=` rather than the `"@jsr"` scope it actually wrote, appends
the block a second time. -/
theorem setupBunfigToml_not_idempotent :
    setupBunfigState (setupBunfigState none) ≠ setupBunfigState none ∧
    setupBunfigState (some JSR_BUNFIG) = some (JSR_BUNFIG ++ JSR_BUNFIG) := by
  constructor
  · decide
  · decide

/-- Claim C2 counterexample: the create-new-file path writes `JSR_NPMRC`,
and the line `@jsr:registry=https://npm.jsr.io/` claimed by the spec (with
a trailing slash on the URL) does not occur in it. -/
theorem npmrc_line_trailing_slash_counterexample :
    setupNpmRc ReadResult.enoent = Except.ok (some JSR_NPMRC) ∧
    ¬ specNpmrcLineSlash <:+: JSR_NPMRC := by
  exact ⟨rfl, by decide⟩

/-- Claim C2 as amended: the line `setupNpmRc` writes is the literal
`@jsr:registry=https://npm.jsr.io` without a trailing slash, followed by a
newline, on both the create-new-file path and the append path. -/
theorem setupNpmRc_writes_line_without_slash (c : List Char)
    (h : ¬ JSR_NPMRC <:+: c) :
    JSR_NPMRC = ("@jsr:registry=https://npm.jsr.io" ++ "\n").data ∧
    setupNpmRc ReadResult.enoent = Except.ok (some JSR_NPMRC) ∧
    setupNpmRc (ReadResult.found c) = Except.ok (some (c ++ JSR_NPMRC)) := by
  refine ⟨by decide, rfl, ?_⟩
  simp [setupNpmRc, h]

theorem setupNpmRc_writes_line_without_slash_witness :
    JSR_NPMRC = ("@jsr:registry=https://npm.jsr.io" ++ "\n").data ∧
    setupNpmRc ReadResult.enoent = Except.ok (some JSR_NPMRC) ∧
    setupNpmRc (ReadResult.found []) = Except.ok (some ([] ++ JSR_NPMRC)) :=
  setupNpmRc_writes_line_without_slash [] (by decide)

/-- Claim C3 counterexample: with the token supplied as the empty string,
the argument list contains no `--token` flag, so the flag is not present
"iff a token is supplied". -/
theorem publish_empty_token_counterexample :
    (PublishOptions.mk false false (some "")).token = some "" ∧
    "--token" ∉ publishArgs (PublishOptions.mk false false (some "")) :=
  ⟨rfl, by decide⟩

/-- Claim C3 as amended: when the binary exists at the computed path,
`publish` performs no deletion and no download and executes the subprocess
with `publish --unstable-bare-node-builtins --unstable-sloppy-imports`
followed, in this order, by `--dry-run` iff `dryRun`, `--allow-slow-types`
iff `allowSlowTypes`, and `--token <value>` iff a non-empty token is
supplied. -/
theorem publish_present_args_order (o : PublishOptions) (r : RmOutcome) :
    publishTrace true r o = ([Effect.exec (publishArgs o)], none) ∧
    publishArgs o =
      ["publish", "--unstable-bare-node-builtins",
          "--unstable-sloppy-imports"] ++
        (if o.dryRun then ["--dry-run"] else []) ++
        (if o.allowSlowTypes then ["--allow-slow-types"] else []) ++
        (match o.token with
         | some t => if t = "" then [] else ["--token", t]
         | none => []) := by
  obtain ⟨d, a, t⟩ := o
  refine ⟨rfl, ?_⟩
  cases t with
  | none => cases d <;> cases a <;> rfl
  | some s =>
      by_cases hs : s = "" <;> cases d <;> cases a <;>
        simp [publishArgs, hs]

/-- Claim C4: when the binary is absent, `publish` first attempts the
recursive deletion of `binFolder`; an ENOENT failure of that deletion is
swallowed and the download and execution proceed; any other failure
propagates and aborts the operation before the download. -/
theorem publish_absent_rm_then_download (o : PublishOptions) (r : RmOutcome)
    (e : Nat) :
    (publishTrace false r o).1.head? = some Effect.rmBinFolder ∧
    publishTrace false RmOutcome.enoent o =
      ([Effect.rmBinFolder, Effect.download, Effect.exec (publishArgs o)],
        none) ∧
    publishTrace false (RmOutcome.failure e) o =
      ([Effect.rmBinFolder], some e) := by
  refine ⟨?_, rfl, rfl⟩
  cases r <;> rfl

/-- Claim C5: when the `.npmrc` read fails with ENOENT, `setupNpmRc`
creates the file with contents exactly the fixed registry line and nothing
else. -/
theorem setupNpmRc_enoent_creates_exact_line :
    setupNpmRc ReadResult.enoent = Except.ok (some JSR_NPMRC) := rfl

/-- Claim C6: for every existing `.npmrc` whose contents already contain
the registry line, `setupNpmRc` performs no write, so the file bytes after
the call equal the file bytes before it. -/
theorem setupNpmRc_no_write_when_line_present (c : List Char)
    (h : JSR_NPMRC <:+: c) :
    setupNpmRc (ReadResult.found c) = Except.ok none := by
  simp [setupNpmRc, h]

theorem setupNpmRc_no_write_when_line_present_witness :
    setupNpmRc (ReadResult.found JSR_NPMRC) = Except.ok none :=
  setupNpmRc_no_write_when_line_present JSR_NPMRC ( List.infix_refl _)

/-- Claim C8: `wrapWithStatus label action` first prints `label...`, then
runs the action; it prints `ok` when the action succeeds and `error` when
it fails, and its outcome is exactly the action's outcome: it raises iff
the action raises and never swallows an error. -/
theorem wrapWithStatus_reports {E : Type} (msg : String)
    (fn : List String × Except E Unit) :
    (wrapWithStatus msg fn).1 =
      (msg ++ "...") :: fn.1 ++
        [if (fn.2).isOk then "ok\n" else "error\n"] ∧
    (wrapWithStatus msg fn).2 = fn.2 := by
  obtain ⟨out, r⟩ := fn
  cases r <;> simp [wrapWithStatus, Except.isOk, Except.toBool]

/-- Claim C9: for every existing `bunfig.toml` whose contents contain a
line beginning with `"@myorg1"` followed by whitespace and `=` (the
source's regex test succeeds), `setupBunfigToml` performs no write, even
when the `[install.scopes]` block for the `@jsr` scope is absent. -/
theorem setupBunfigToml_no_write_on_myorg1 (c : List Char)
    (h : bunfigScopeTest c = true) :
    setupBunfigToml (ReadResult.found c) = Except.ok none := by
  simp [setupBunfigToml, h]

theorem setupBunfigToml_no_write_on_myorg1_witness :
    setupBunfigToml (ReadResult.found (("\"@myorg1\" = \"x\"\n").data)) =
      Except.ok none :=
  setupBunfigToml_no_write_on_myorg1 _ (by decide)

/-- Claim C10: when `token` is the empty string, the argument list passed
to the subprocess contains no `--token` flag; the emptiness of the string,
not only its being undefined, suppresses the flag. -/
theorem publishArgs_empty_token_no_flag (d a : Bool) :
    "--token" ∉ publishArgs (PublishOptions.mk d a (some "")) := by
  cases d <;> cases a <;> decide

end JsrNpm
